import Mathlib

/-!
Shallow embedding of the resolution and nutrition-composition core of the
calories-estimation chatbot backend: the nutrition scaler
(`app/services/nutrition.py`, `app/core/calorie_calculator.py`,
`app/data/usda_handler.py`), the recipe modification engine
(`app/core/recipe_modifier.py`, `app/core/ingredient_manager.py`),
the in-memory dish matcher (`app/data/dishes_handler.py`) and the
database-backed dish search (`app/repositories/dishes.py`).

Python floats are modelled as exact rationals (`ℚ`); Python `round(x, 1)`
is modelled as round-half-to-even at one decimal place.  External
collaborators (embedding model, USDA food store) are modelled as explicit
oracle parameters; everything else is translated from the source.
-/

namespace CaloriesBot

/-! ## String utilities (character-list based, mirroring Python `str` ops) -/

/-- Lower-case a string (Python `str.lower`; ASCII, which covers the data). -/
def lowerStr (s : String) : String := ⟨s.data.map Char.toLower⟩

/-- Python `str.strip()`: drop leading and trailing whitespace. -/
def stripStr (s : String) : String :=
  ⟨((s.data.dropWhile Char.isWhitespace).reverse.dropWhile Char.isWhitespace).reverse⟩

/-- Split a character list on a predicate, keeping empty chunks. -/
def splitCharsP (p : Char → Bool) : List Char → List (List Char)
  | [] => [[]]
  | c :: cs =>
    let rest := splitCharsP p cs
    if p c then [] :: rest
    else match rest with
      | [] => [[c]]
      | r :: rs => (c :: r) :: rs

/-- Python `str.split()` (no argument): split on whitespace runs, dropping empties. -/
def wordsOf (s : String) : List String :=
  ((splitCharsP Char.isWhitespace s.data).map (fun l => (⟨l⟩ : String))).filter (· ≠ "")

/-- Python `str.split(',')`: split on commas, keeping empty chunks. -/
def splitComma (s : String) : List String :=
  (splitCharsP (· == ',') s.data).map (fun l => (⟨l⟩ : String))

/-- Whether `pre` is a prefix of `l`. -/
def isPrefixOfChars : List Char → List Char → Bool
  | [], _ => true
  | _ :: _, [] => false
  | a :: as, b :: bs => a == b && isPrefixOfChars as bs

/-- Python `str.startswith`. -/
def startsWithStr (s pre : String) : Bool := isPrefixOfChars pre.data s.data

/-- Python `str.endswith`. -/
def endsWithStr (s suf : String) : Bool :=
  isPrefixOfChars suf.data.reverse s.data.reverse

/-- Index of the first occurrence of `needle` in `hay` (Python `str.find`). -/
def findSubIdx : List Char → List Char → Option Nat
  | _, [] => some 0
  | [], _ :: _ => none
  | hay@(_ :: hs), needle =>
    if isPrefixOfChars needle hay then some 0
    else (findSubIdx hs needle).map (· + 1)

/-- Python `needle in hay` on strings. -/
def containsSub (hay needle : String) : Bool := (findSubIdx hay.data needle.data).isSome

/-- Remove duplicates, keeping first occurrences (Python `set`, with list order). -/
def dedup (l : List String) : List String :=
  l.foldl (fun acc s => if s ∈ acc then acc else acc ++ [s]) []

/-- Insertion sort of strings in increasing lexicographic order (Python `sorted`). -/
def insertSorted (s : String) : List String → List String
  | [] => [s]
  | t :: ts => if s < t then s :: t :: ts else t :: insertSorted s ts

/-- Sort a list of strings lexicographically. -/
def sortStrings (l : List String) : List String := l.foldr insertSorted []

/-- Python `" ".join`. -/
def joinSpace (l : List String) : String := String.intercalate " " l

/-! ## Rounding (Python `round(x, 1)`: round half to even, one decimal) -/

/-- Round a rational to the nearest integer, ties to even (Python `round`). -/
def halfEven (y : ℚ) : ℤ :=
  let f := ⌊y⌋
  let r := y - (f : ℚ)
  if r < 1/2 then f
  else if r > 1/2 then f + 1
  else if f % 2 = 0 then f else f + 1

/-- Python `round(x, 1)`. -/
def round1 (x : ℚ) : ℚ := (halfEven (10 * x) : ℚ) / 10

/-- On a rational that is already a one-decimal multiple, `round1` is the identity. -/
theorem round1_eq_self_of_den {x : ℚ} (h : ∃ n : ℤ, x = (n : ℚ) / 10) : round1 x = x := by
  obtain ⟨n, rfl⟩ := h
  have h10 : (10 : ℚ) * ((n : ℚ) / 10) = (n : ℚ) := by ring
  unfold round1 halfEven
  rw [h10]
  have hfl : ⌊(n : ℚ)⌋ = n := Int.floor_intCast n
  simp only [hfl, sub_self]
  norm_num

/-! ## Data model (`app/models/schemas.py`) -/

/-- `NutritionTotals` (schemas.py): calories, carbs, protein, fat. -/
structure NutritionTotals where
  calories : ℚ
  carbs : ℚ
  protein : ℚ
  fat : ℚ
deriving DecidableEq, Repr

/-- `IngredientWithNutrition` (schemas.py): name, weight and macros scaled to that weight. -/
structure IngredientWithNutrition where
  name : String
  weight_g : ℚ
  usda_fdc_id : Option ℤ
  calories : ℚ
  carbs : ℚ
  protein : ℚ
  fat : ℚ
deriving DecidableEq, Repr

/-- `ModificationAction` (schemas.py): action tag, target ingredient name, optional new weight. -/
structure ModificationAction where
  action : String
  ingredient : String
  new_weight_g : Option ℚ
deriving DecidableEq, Repr

/-! ## Nutrition scaler (`app/services/nutrition.py`) -/

/-- `NutritionService.calculate_nutrition_by_weight` (nutrition.py lines 44-72):
scale per-100g macros to `weight_g`, rounding each field to one decimal place.
The source has no weight validation: it is total in `weight_g`. -/
def calculateNutritionByWeight (calories100 carbs100 protein100 fat100 weight_g : ℚ) :
    NutritionTotals :=
  let multiplier := weight_g / 100
  { calories := round1 (calories100 * multiplier)
    carbs := round1 (carbs100 * multiplier)
    protein := round1 (protein100 * multiplier)
    fat := round1 (fat100 * multiplier) }

/-- Modelled from the spec (§4.1 `scale_to_weight`): the spec's words require the
scaled result only for `weight_g > 0` and an `InvalidWeight` failure (`none`)
whenever `weight_g <= 0`.  Kept for comparison against
`calculateNutritionByWeight`, which is the source translation. -/
def specScaleToWeight (calories100 carbs100 protein100 fat100 weight_g : ℚ) :
    Option NutritionTotals :=
  if weight_g ≤ 0 then none
  else some (calculateNutritionByWeight calories100 carbs100 protein100 fat100 weight_g)

/-- The loop body shared by both `calculate_totals` implementations: accumulate
one ingredient's macros into the running totals. -/
def addToTotals (t : NutritionTotals) (ing : IngredientWithNutrition) : NutritionTotals :=
  { calories := t.calories + ing.calories
    carbs := t.carbs + ing.carbs
    protein := t.protein + ing.protein
    fat := t.fat + ing.fat }

/-- `NutritionService.calculate_totals` (nutrition.py lines 10-42): element-wise sum
over the ingredient list, then each total rounded to one decimal place. -/
def calculateTotalsNS (ingredients : List IngredientWithNutrition) : NutritionTotals :=
  let t := ingredients.foldl addToTotals { calories := 0, carbs := 0, protein := 0, fat := 0 }
  { calories := round1 t.calories
    carbs := round1 t.carbs
    protein := round1 t.protein
    fat := round1 t.fat }

/-! ## Calorie calculator (`app/core/calorie_calculator.py`) -/

/-- `CalorieCalculator.calculate_totals` (calorie_calculator.py lines 12-38):
plain element-wise sum, no rounding. -/
def calculateTotalsCC (ingredients : List IngredientWithNutrition) : NutritionTotals :=
  ingredients.foldl addToTotals { calories := 0, carbs := 0, protein := 0, fat := 0 }

/-- `CalorieCalculator.calculate_per_100g` (calorie_calculator.py lines 40-67):
scale the totals to per-100g; for non-positive total weight return the unscaled
totals unchanged. -/
def calculatePer100g (ingredients : List IngredientWithNutrition) (total_weight_g : ℚ) :
    NutritionTotals :=
  let totals := calculateTotalsCC ingredients
  if total_weight_g ≤ 0 then totals
  else
    let factor := 100 / total_weight_g
    { calories := totals.calories * factor
      carbs := totals.carbs * factor
      protein := totals.protein * factor
      fat := totals.fat * factor }

/-! ## Modification engine (`app/core/recipe_modifier.py`, `app/core/ingredient_manager.py`) -/

/-- The `plural_to_singular` mapping table of `RecipeModifier._extract_core_ingredient`
(recipe_modifier.py lines 95-112). -/
def pluralToSingular : List (String × String) :=
  [("potatoes", "potato"), ("potato", "potato"),
   ("tomatoes", "tomato"), ("tomato", "tomato"),
   ("onions", "onion"), ("onion", "onion"),
   ("peppers", "pepper"), ("pepper", "pepper"),
   ("mushrooms", "mushroom"), ("mushroom", "mushroom"),
   ("pickles", "pickle"), ("pickle", "pickle"),
   ("fries", "potato"), ("french fries", "potato"),
   ("french fry", "potato"), ("steak fries", "potato")]

/-- Association-list lookup (Python `dict` access). -/
def lookupTable (tbl : List (String × String)) (k : String) : Option String :=
  (tbl.find? (fun p => p.1 == k)).map Prod.snd

/-- `RecipeModifier._extract_core_ingredient` (recipe_modifier.py lines 74-134):
text before the first comma, first word (or first two words for multi-word
aliases), plural table, then a trailing-"s" heuristic with exceptions. -/
def extractCoreIngredient (ingredient_name : String) : String :=
  if ingredient_name = "" then ""
  else
    let nameLower := stripStr (lowerStr ingredient_name)
    let firstPart := stripStr ((splitComma nameLower).headD "")
    let words := wordsOf firstPart
    let twoWordHit :=
      if words.length ≥ 2 then
        lookupTable pluralToSingular (words.headD "" ++ " " ++ (words.drop 1).headD "")
      else none
    match twoWordHit with
    | some v => v
    | none =>
      match words with
      | [] => nameLower
      | firstWord :: _ =>
        match lookupTable pluralToSingular firstWord with
        | some v => v
        | none =>
          if endsWithStr firstWord "s" ∧ firstWord.length > 3 then
            let singular : String := ⟨firstWord.data.dropLast⟩
            if singular ∉ ["chic", "onion", "pepper"] then singular else firstWord
          else firstWord

/-- `RecipeModifier._ingredients_match` (recipe_modifier.py lines 136-167):
equal core names, core-in-full-name either way, or full-name substring fallback. -/
def ingredientsMatch (queryIngredient dbIngredient : String) : Bool :=
  if queryIngredient = "" ∨ dbIngredient = "" then false
  else
    let queryLower := stripStr (lowerStr queryIngredient)
    let dbLower := stripStr (lowerStr dbIngredient)
    let queryCore := extractCoreIngredient queryIngredient
    let dbCore := extractCoreIngredient dbIngredient
    (queryCore ≠ "" && dbCore ≠ "" && queryCore == dbCore) ||
    (queryCore ≠ "" && containsSub dbLower queryCore) ||
    (dbCore ≠ "" && containsSub queryLower dbCore) ||
    containsSub dbLower queryLower || containsSub queryLower dbLower

/-- `RecipeModifier._remove_ingredient` (recipe_modifier.py lines 169-194): keep
ingredients with an empty name or whose name does not match the target. -/
def removeIngredient (ingredients : List IngredientWithNutrition) (ingredient_name : String) :
    List IngredientWithNutrition :=
  if ingredient_name = "" ∨ ingredients = [] then ingredients
  else ingredients.filter (fun ing => ing.name == "" || !(ingredientsMatch ingredient_name ing.name))

/-- A per-100g food record of the external USDA composition store
(the `food` rows consumed by `IngredientManager.search_and_calculate`). -/
structure UsdaFood where
  description : String
  fdc_id : ℤ
  calories : ℚ
  carbs : ℚ
  protein : ℚ
  fat : ℚ
deriving DecidableEq, Repr

/-- `IngredientManager.search_and_calculate` (ingredient_manager.py lines 14-65).
The USDA repository search (embedding + fallback) is an external collaborator,
modelled as the oracle `lookup`; the nutrition scaling of a found record is the
source's code. -/
def searchAndCalculate (lookup : String → Option UsdaFood) (name : String) (weight_g : ℚ) :
    Option IngredientWithNutrition :=
  match lookup name with
  | none => none
  | some food =>
    let nutrition := calculateNutritionByWeight food.calories food.carbs food.protein food.fat weight_g
    some { name := food.description
           weight_g := weight_g
           usda_fdc_id := some food.fdc_id
           calories := nutrition.calories
           carbs := nutrition.carbs
           protein := nutrition.protein
           fat := nutrition.fat }

/-- `RecipeModifier._add_ingredient` (recipe_modifier.py lines 196-215): default the
weight to 30 g, resolve via the ingredient manager, append on success, otherwise
return the list unchanged. -/
def addIngredient (lookup : String → Option UsdaFood)
    (ingredients : List IngredientWithNutrition) (ingredient_name : String)
    (weight_g : Option ℚ) : List IngredientWithNutrition :=
  let w := weight_g.getD 30
  match searchAndCalculate lookup ingredient_name w with
  | some newIngredient => ingredients ++ [newIngredient]
  | none => ingredients

/-- `RecipeModifier._change_quantity` (recipe_modifier.py lines 217-254): with a
missing (`None`) or zero new weight the list is returned unchanged (Python
`not new_weight_g`); otherwise each matching ingredient's macros are rebuilt from
the implicit per-100g rate (zero-weight guarded to 0) and rescaled. -/
def changeQuantity (ingredients : List IngredientWithNutrition) (ingredient_name : String)
    (new_weight_g : Option ℚ) : List IngredientWithNutrition :=
  match new_weight_g with
  | none => ingredients
  | some nw =>
    if ingredient_name = "" ∨ nw = 0 then ingredients
    else
      ingredients.map (fun ing =>
        if ing.name ≠ "" ∧ ingredientsMatch ingredient_name ing.name then
          let per100 : ℚ → ℚ := fun v => if ing.weight_g > 0 then v * (100 / ing.weight_g) else 0
          let nutrition := calculateNutritionByWeight
            (per100 ing.calories) (per100 ing.carbs) (per100 ing.protein) (per100 ing.fat) nw
          { name := ing.name
            weight_g := nw
            usda_fdc_id := ing.usda_fdc_id
            calories := nutrition.calories
            carbs := nutrition.carbs
            protein := nutrition.protein
            fat := nutrition.fat }
        else ing)

/-- `RecipeModifier.apply_modifications` (recipe_modifier.py lines 16-72): empty
ingredient lists yield `[]`, an empty modification list is the identity, and each
action is dispatched on its tag (empty target names and unknown tags are skipped). -/
def applyModifications (lookup : String → Option UsdaFood)
    (ingredients : List IngredientWithNutrition) (modifications : List ModificationAction) :
    List IngredientWithNutrition :=
  if ingredients = [] then []
  else if modifications = [] then ingredients
  else
    modifications.foldl
      (fun result mod =>
        if mod.action == "remove" then
          if mod.ingredient = "" then result
          else removeIngredient result mod.ingredient
        else if mod.action == "add" then
          if mod.ingredient = "" then result
          else addIngredient lookup result mod.ingredient mod.new_weight_g
        else if mod.action == "change_quantity" then
          if mod.ingredient = "" then result
          else changeQuantity result mod.ingredient mod.new_weight_g
        else result)
      ingredients

/-! ## In-memory dish matcher (`app/data/dishes_handler.py`) -/

/-- A dish row of the in-memory handler (`DishesHandler.dishes`), reduced to the
fields the matcher reads through `_get_dish_name` / `_get_dish_country`. -/
structure HandlerDish where
  name : String
  country : String
deriving DecidableEq, Repr

/-- `_get_dish_name` (dishes_handler.py lines 234-242): the stripped name. -/
def getDishName (d : HandlerDish) : String := stripStr d.name

/-- `_get_dish_country` (dishes_handler.py lines 244-250): the stripped country. -/
def getDishCountry (d : HandlerDish) : String := stripStr d.country

/-- `DishesHandler.SYNONYMS` (dishes_handler.py lines 17-45), in source order. -/
def synonymGroups : List (String × List String) :=
  [("wrap", ["wrap", "sandwich", "pita", "bread"]),
   ("sandwich", ["sandwich", "wrap", "pita", "bread"]),
   ("plate", ["plate", "dish", "platter", "bowl"]),
   ("bowl", ["bowl", "plate", "dish"]),
   ("grilled", ["grilled", "meshwi", "mashwi", "bbq", "barbecue"]),
   ("fried", ["fried", "ma2li", "maqli", "crispy"]),
   ("baked", ["baked", "roasted", "oven"]),
   ("boiled", ["boiled", "masloo2", "cooked"]),
   ("small", ["small", "mini", "sghir", "sghire", "saghir"]),
   ("medium", ["medium", "regular", "normal", "wasat"]),
   ("large", ["large", "big", "kbir", "kbire", "kabir"]),
   ("chicken", ["chicken", "djej", "djeij", "djaj", "dajaj", "فراخ", "دجاج"]),
   ("beef", ["beef", "lahme", "lahm", "لحم", "لحمة"]),
   ("lamb", ["lamb", "kharouf", "غنم", "خروف"]),
   ("fries", ["fries", "batata", "potato", "potatoes", "chips", "بطاطا"]),
   ("rice", ["rice", "roz", "riz", "رز", "أرز"]),
   ("bread", ["bread", "khobz", "khubz", "pita", "خبز"]),
   ("salad", ["salad", "salata", "سلطة"])]

/-- `DishesHandler.SPELLING_VARIATIONS` (dishes_handler.py lines 50-86). -/
def spellingVariations : List (String × String) :=
  [("fahita", "fajita"), ("fajita", "fajita"), ("fahitas", "fajita"), ("fajitas", "fajita"),
   ("hommos", "hummus"), ("hummos", "hummus"), ("humus", "hummus"),
   ("7ummus", "hummus"), ("7ommos", "hummus"), ("حمص", "hummus"),
   ("tabouleh", "tabbouleh"), ("taboule", "tabbouleh"),
   ("tab2oule", "tabbouleh"), ("tabbouli", "tabbouleh"), ("تبولة", "tabbouleh"),
   ("flafel", "falafel"), ("felafel", "falafel"), ("فلافل", "falafel"),
   ("shawrma", "shawarma"), ("shawerma", "shawarma"), ("shwarma", "shawarma"), ("شاورما", "shawarma"),
   ("kibbe", "kibbeh"), ("kebbeh", "kibbeh"), ("kubbeh", "kibbeh"), ("kubba", "kibbeh"), ("كبة", "kibbeh"),
   ("knafeh", "kunafa"), ("knefe", "kunafa"), ("konafa", "kunafa"), ("kanafeh", "kunafa"), ("كنافة", "kunafa"),
   ("fattush", "fattoush"), ("fatoush", "fattoush"), ("fattouch", "fattoush"), ("فتوش", "fattoush"),
   ("mana2ish", "manakish"), ("manaeesh", "manakish"),
   ("man2ousheh", "manakish"), ("mankoushe", "manakish"), ("مناقيش", "manakish"),
   ("labne", "labneh"), ("labaneh", "labneh"), ("labna", "labneh"), ("لبنة", "labneh"),
   ("mjaddara", "mujadara"), ("mudardara", "mujadara"), ("mejadra", "mujadara"), ("مجدرة", "mujadara"),
   ("koshary", "koshari"), ("kushari", "koshari"), ("koshri", "koshari"), ("كشري", "koshari"),
   ("kabseh", "kabsa"), ("machboos", "kabsa"), ("machbus", "kabsa"), ("كبسة", "kabsa"),
   ("kousa", "kousa"), ("kusa", "kousa"), ("koussa", "kousa"),
   ("foul", "ful"), ("fool", "ful"), ("فول", "ful"),
   ("babaganoush", "baba ghanoush"), ("baba ganoush", "baba ghanoush"), ("متبل", "baba ghanoush")]

/-- `DishesHandler.STOP_WORDS` (dishes_handler.py lines 91-99). -/
def stopWords : List String :=
  ["with", "and", "the", "a", "an", "of", "in", "on", "for", "to",
   "how", "many", "much", "calories", "calorie", "cal", "kcal",
   "please", "thanks", "thank", "you",
   "ال", "و", "في", "من",
   "el", "al", "w", "b", "bi", "bl", "fi"]

/-- `_normalize_spelling` (dishes_handler.py lines 113-116). -/
def normalizeSpelling (word : String) : String :=
  let wl := stripStr (lowerStr word)
  (lookupTable spellingVariations wl).getD wl

/-- `_get_synonyms` (dishes_handler.py lines 118-124): the first synonym group
containing the word, else the singleton. -/
def getSynonyms (word : String) : List String :=
  let wl := stripStr (lowerStr word)
  match synonymGroups.find? (fun g => wl ∈ g.2) with
  | some g => g.2
  | none => [wl]

/-- `_words_are_synonyms` (dishes_handler.py lines 126-137). -/
def wordsAreSynonyms (word1 word2 : String) : Bool :=
  let w1 := stripStr (lowerStr word1)
  let w2 := stripStr (lowerStr word2)
  w1 == w2 || ((getSynonyms w1).filter (· ∈ getSynonyms w2)) ≠ []

/-- `_extract_key_words` (dishes_handler.py lines 139-151): lower-case, map
`,`/`-`/`+` to spaces, split on whitespace, drop stop words and one-character
words, normalize spelling variations. -/
def extractKeyWords (text : String) : List String :=
  let cleaned : String :=
    ⟨(lowerStr text).data.map (fun c => if c == ',' || c == '-' || c == '+' then ' ' else c)⟩
  ((wordsOf cleaned).filter (fun w => w ∉ stopWords ∧ w.length > 1)).map normalizeSpelling

/-- `_calculate_match_score` (dishes_handler.py lines 153-185): bidirectional
synonym-aware word coverage, weighted 0.6 toward the query. -/
def calculateMatchScore (queryWords dishWords : List String) : ℚ :=
  if queryWords = [] ∨ dishWords = [] then 0
  else
    let matchedQuery := (queryWords.filter
      (fun q => dishWords.any (fun d => wordsAreSynonyms q d))).length
    let matchedDish := (dishWords.filter
      (fun d => queryWords.any (fun q => wordsAreSynonyms q d))).length
    (matchedQuery : ℚ) / queryWords.length * (6/10) +
      (matchedDish : ℚ) / dishWords.length * (4/10)

/-! ### Fuzzy string scorer (rapidfuzz `fuzz.token_set_ratio`)

`rapidfuzz.fuzz.ratio` is the normalized Indel similarity,
`100 * 2*LCS(a,b) / (|a| + |b|)`; `token_set_ratio` applies it to the joined
sorted token-set intersection and differences, as in the library. -/

/-- One row update of the longest-common-subsequence dynamic program. -/
def lcsNextRow (x : Char) : List Char → List ℕ → ℕ → List ℕ
  | y :: ys, pdiag :: prest, left =>
    let c := if x == y then pdiag + 1 else max (prest.headD 0) left
    c :: lcsNextRow x ys prest c
  | _, _, _ => []

/-- Length of the longest common subsequence of two character lists. -/
def lcsChars (xs ys : List Char) : ℕ :=
  let final := xs.foldl (fun prev x => 0 :: lcsNextRow x ys prev 0)
    (List.replicate (ys.length + 1) 0)
  final.getLastD 0

/-- `rapidfuzz.fuzz.ratio` as a rational in `[0, 100]`. -/
def fuzzRatio (a b : String) : ℚ :=
  let la := a.length
  let lb := b.length
  if la + lb = 0 then 100
  else 200 * (lcsChars a.data b.data : ℚ) / (la + lb)

/-- `rapidfuzz.fuzz.token_set_ratio`: split on whitespace into token sets,
score the sorted intersection against the sorted differences. -/
def tokenSetRatio (s1 s2 : String) : ℚ :=
  let ta := dedup (wordsOf s1)
  let tb := dedup (wordsOf s2)
  if ta = [] ∨ tb = [] then 0
  else
    let sect := sortStrings (ta.filter (· ∈ tb))
    let diffAB := sortStrings (ta.filter (· ∉ tb))
    let diffBA := sortStrings (tb.filter (· ∉ ta))
    if sect ≠ [] ∧ (diffAB = [] ∨ diffBA = []) then 100
    else
      let t0 := joinSpace sect
      let t1 := joinSpace (sect ++ diffAB)
      let t2 := joinSpace (sect ++ diffBA)
      max (fuzzRatio t0 t1) (max (fuzzRatio t0 t2) (fuzzRatio t1 t2))

/-- First element of a nonempty list maximizing `f` (Python `sort(reverse=True)`
stability / `argmax` both return the earliest maximum). -/
def argmaxFirst (f : α → ℚ) : List α → Option α
  | [] => none
  | x :: xs =>
    match argmaxFirst f xs with
    | none => some x
    | some y => if f y > f x then some y else some x

/-! ### The `find_dish` strategy cascade (dishes_handler.py lines 288-420) -/

/-- Country-priority candidate selection (find_dish lines 314-325): filter by
country case-insensitively; if the filter is empty, fall back to all dishes. -/
def candidatesFor (dishes : List HandlerDish) : Option String → List HandlerDish
  | none => dishes
  | some country =>
    let filtered := dishes.filter
      (fun d => lowerStr (getDishCountry d) == lowerStr country)
    if filtered = [] then dishes else filtered

/-- The `(lowered name, dish)` choice list (find_dish lines 328-332),
dropping dishes with empty names. -/
def dishChoices (candidates : List HandlerDish) : List (String × HandlerDish) :=
  candidates.filterMap (fun d =>
    let n := getDishName d
    if n ≠ "" then some (stripStr (lowerStr n), d) else none)

/-- Strategy 1 (find_dish lines 338-342): exact match on the lowered name. -/
def strategyExact (choices : List (String × HandlerDish)) (queryLower : String) :
    Option HandlerDish :=
  (choices.find? (fun c => c.1 == queryLower)).map Prod.snd

/-- Strategy 2 (find_dish lines 344-372): keyword/synonym bidirectional coverage;
accept at score ≥ 0.9, or at score ≥ 0.75 when no other candidate is within 0.1. -/
def strategyKeyword (queryWords : List String) (choices : List (String × HandlerDish)) :
    Option HandlerDish :=
  let keywordMatches := choices.filterMap (fun c =>
    let dishWords := extractKeyWords c.1
    let score := calculateMatchScore queryWords dishWords
    if score > 0 then some (c.1, c.2, score) else none)
  match argmaxFirst (fun m => m.2.2) keywordMatches with
  | none => none
  | some best =>
    if best.2.2 ≥ 9/10 then some best.2.1
    else if best.2.2 ≥ 3/4 then
      let closeMatches := keywordMatches.filter (fun m => m.2.2 ≥ best.2.2 - 1/10)
      if closeMatches.length = 1 then some best.2.1 else none
    else none

/-- Strategy 3 (find_dish lines 374-396): best `token_set_ratio` over the choice
names (`process.extractOne`); accept when it reaches the fuzzy threshold,
returning the first choice carrying the matched name. -/
def strategyFuzzy (queryLower : String) (choices : List (String × HandlerDish))
    (fuzzyThreshold : ℚ) : Option HandlerDish :=
  match argmaxFirst (fun n => tokenSetRatio queryLower n) (choices.map Prod.fst) with
  | none => none
  | some matchedName =>
    if tokenSetRatio queryLower matchedName ≥ fuzzyThreshold then
      (choices.find? (fun c => c.1 == matchedName)).map Prod.snd
    else none

/-- `_semantic_search` (dishes_handler.py lines 252-286): the embedding model is
the external collaborator, modelled by the oracle `sim` giving the cosine
similarity of each lowered candidate name to the query; return the argmax
candidate when its similarity reaches the threshold. -/
def semanticSearch (sim : String → ℚ) (candidates : List HandlerDish) (threshold : ℚ) :
    Option HandlerDish :=
  let pairs := candidates.filterMap (fun d =>
    let n := getDishName d
    if n ≠ "" then some (stripStr (lowerStr n), d) else none)
  match argmaxFirst (fun p => sim p.1) pairs with
  | none => none
  | some best => if sim best.1 ≥ threshold then some best.2 else none

/-- Strategy 4 (find_dish lines 398-413): semantic candidate, re-verified by the
keyword score against the query at 0.5. -/
def strategySemantic (sim : String → ℚ) (queryWords : List String)
    (candidates : List HandlerDish) (semanticThreshold : ℚ) : Option HandlerDish :=
  match semanticSearch sim candidates semanticThreshold with
  | none => none
  | some d =>
    let semanticWords := extractKeyWords (lowerStr (getDishName d))
    if calculateMatchScore queryWords semanticWords ≥ 1/2 then some d else none

/-- First-some choice between two options (sequential `return` in the source). -/
def orElseO (a b : Option α) : Option α :=
  match a with
  | some x => some x
  | none => b

/-- `DishesHandler.find_dish` (dishes_handler.py lines 288-420): the full cascade
over the country-filtered candidates.  `sim` is the embedding-similarity oracle
for this query's embedding. -/
def findDish (sim : String → ℚ) (dishes : List HandlerDish) (dish_name : String)
    (country : Option String) (fuzzyThreshold semanticThreshold : ℚ) : Option HandlerDish :=
  if dishes = [] then none
  else
    let queryLower := stripStr (lowerStr dish_name)
    let candidates := candidatesFor dishes country
    let choices := dishChoices candidates
    let queryWords := extractKeyWords queryLower
    orElseO (strategyExact choices queryLower)
      (orElseO (strategyKeyword queryWords choices)
        (orElseO (strategyFuzzy queryLower choices fuzzyThreshold)
          (strategySemantic sim queryWords candidates semanticThreshold)))

/-! ## Database-backed dish search (`app/repositories/dishes.py`) -/

/-- A dish row of the `dishes` table, with `sim` the vector similarity
`1 - cosine_distance(embedding, query_embedding)` of its stored embedding to the
(fixed) query embedding — the embedding provider is the external collaborator. -/
structure DbDish where
  name : String
  country : String
  sim : ℚ
deriving DecidableEq, Repr

/-- The stop-word set of `_is_partial_match` (dishes.py line 260). -/
def partialStopWords : List String :=
  ["the", "a", "an", "and", "or", "with", "in", "on", "of", "for", "to"]

/-- The `acceptable_additions` set (dishes.py lines 306-309 and 335-338). -/
def acceptableAdditions : List String :=
  ["wrap", "plate", "sandwich", "salad", "bowl", "meal", "pita",
   "with", "and", "the", "a", "an", "of", "in", "on"]

/-- The `significant_food_words` set (dishes.py lines 316-319 and 343-346). -/
def significantFoodWords : List String :=
  ["pizza", "burger", "pasta", "soup", "salad", "sandwich",
   "wrap", "taco", "burrito", "quesadilla", "calzone"]

/-- Deduplicate characters keeping first occurrences (Python `set` of a string). -/
def dedupChars (l : List Char) : List Char :=
  l.foldl (fun acc c => if c ∈ acc then acc else acc ++ [c]) []

/-- Character-set overlap ratio of two strings with spaces removed
(dishes.py lines 269-271 and 354-357). -/
def charOverlapRatio (q dn : String) : ℚ :=
  let a := dedupChars (q.data.filter (· ≠ ' '))
  let b := dedupChars (dn.data.filter (· ≠ ' '))
  let m := max a.length b.length
  if m = 0 then 0 else ((a.filter (· ∈ b)).length : ℚ) / m

/-- The word-boundary substring test of `_is_partial_match`
(dishes.py lines 276-287), for the case where the query occurs inside the dish
name without the dish name starting with it. -/
def substrNotAtBoundary (q dn : String) : Bool :=
  match findSubIdx dn.data q.data with
  | none => false
  | some pos =>
    (pos > 0 && ((dn.data.get? (pos - 1)).getD ' ' != ' ')) ||
    (pos + q.length < dn.length &&
      ((dn.data.get? (pos + q.length)).getD ' ' ∉ ([' ', '-', ',', '.'] : List Char)))

/-- The trailing checks of `_is_partial_match` (dishes.py lines 327-362):
query-words-subset extra-word test, then the 50% character-overlap fallback. -/
def partialTail (queryWords dishWords : List String) (q dn : String) : Bool :=
  if queryWords.all (· ∈ dishWords) then
    let extra := dishWords.filter (· ∉ queryWords)
    if extra = [] then false
    else extra.any (fun w => w ∉ acceptableAdditions ∧ w ∈ significantFoodWords)
  else
    let a := dedupChars ((lowerStr ⟨q.data.filter (· ≠ ' ')⟩).data)
    let b := dedupChars ((lowerStr ⟨dn.data.filter (· ≠ ' ')⟩).data)
    if a.length > 0 ∧ b.length > 0 then
      decide (((a.filter (· ∈ b)).length : ℚ) / max a.length b.length < 1/2)
    else false

/-- `DishesRepository._is_partial_match` (dishes.py lines 235-362): `true` when the
candidate is a partial match or a clearly different dish. -/
def isPartialMatch (query dishName : String) : Bool :=
  let q := stripStr query
  let dn := stripStr dishName
  if q == dn then false
  else
    let queryWords := dedup (wordsOf q)
    let dishWords := dedup (wordsOf dn)
    let qc := queryWords.filter (· ∉ partialStopWords)
    let dc := dishWords.filter (· ∉ partialStopWords)
    let common := qc.filter (· ∈ dc)
    if common = [] ∧ qc ≠ [] ∧ dc ≠ [] ∧ charOverlapRatio q dn < 4/10 then true
    else if startsWithStr dn q then
      if dn == q || dn == q ++ " " || dn == " " ++ q then false
      else
        let rest := stripStr ⟨dn.data.drop q.length⟩
        if rest = "" then false
        else
          (dedup (wordsOf rest)).any
            (fun w => w ∉ acceptableAdditions ∧ w ∈ significantFoodWords)
    else
      if containsSub dn q then
        if substrNotAtBoundary q dn then true
        else partialTail queryWords dishWords q dn
      else if common = [] then true
      else partialTail queryWords dishWords q dn

/-- Country filters of the SQL queries: `country` equality and `exclude_country`
inequality, both case-insensitive. -/
def filterCountry (dishes : List DbDish) (country excludeCountry : Option String) :
    List DbDish :=
  dishes.filter (fun d =>
    (match country with
     | some c => lowerStr d.country == lowerStr c
     | none => true) &&
    (match excludeCountry with
     | some c => lowerStr d.country != lowerStr c
     | none => true))

/-- Stable insertion keeping descending similarity order. -/
def insertSimDesc (d : DbDish) : List DbDish → List DbDish
  | [] => [d]
  | x :: xs => if d.sim > x.sim then d :: x :: xs else x :: insertSimDesc d xs

/-- Stable descending sort by similarity (`ORDER BY similarity DESC`). -/
def sortBySimDesc (l : List DbDish) : List DbDish := l.foldr insertSimDesc []

/-- Stable insertion keeping ascending name-length order. -/
def insertLenAsc (d : DbDish) : List DbDish → List DbDish
  | [] => [d]
  | x :: xs => if d.name.length < x.name.length then d :: x :: xs else x :: insertLenAsc d xs

/-- Stable ascending sort by name length (`ORDER BY length(dish_name)`). -/
def sortByLenAsc (l : List DbDish) : List DbDish := l.foldr insertLenAsc []

/-- `DishesRepository._exact_or_prefix_search` (dishes.py lines 176-233): exact
lowered-name equality first (limit 1), then prefix matches ordered by name
length (limit 10) with partial matches filtered out.  Returns the match and
whether it was exact. -/
def exactOrPrefixSearch (dishes : List DbDish) (queryLower : String)
    (country excludeCountry : Option String) : Option (DbDish × Bool) :=
  let pool := filterCountry dishes country excludeCountry
  match pool.find? (fun d => lowerStr d.name == queryLower) with
  | some d => some (d, true)
  | none =>
    let prefixPool :=
      (sortByLenAsc (pool.filter (fun d => startsWithStr (lowerStr d.name) queryLower))).take 10
    (prefixPool.find? (fun d => !(isPartialMatch queryLower (lowerStr d.name)))).map
      (fun d => (d, false))

/-- `DishesRepository._vector_search` (dishes.py lines 364-464): three progressive
rounds over the similarity-ordered rows (initial threshold, `min_threshold`,
then unconditioned top rows still gated by `min_threshold`), each limited to 10
rows and skipping partial matches when query text is available. -/
def vectorSearch (dishes : List DbDish) (country excludeCountry : Option String)
    (threshold minThreshold : ℚ) (queryText : Option String) : Option (DbDish × ℚ) :=
  let queryLower := match queryText with
    | some t => stripStr (lowerStr t)
    | none => ""
  let notPartial : DbDish → Bool := fun d =>
    match queryText with
    | some _ => !(isPartialMatch queryLower (lowerStr d.name))
    | none => true
  let sorted := sortBySimDesc (filterCountry dishes country excludeCountry)
  let rowsA := ((sorted.filter (fun d => d.sim ≥ threshold)).take 10).find? notPartial
  match rowsA with
  | some d => some (d, d.sim)
  | none =>
    let rowsB := ((sorted.filter (fun d => d.sim ≥ minThreshold)).take 10).find? notPartial
    match rowsB with
    | some d => some (d, d.sim)
    | none =>
      let rowsC := (sorted.take 10).find? (fun d => notPartial d && d.sim ≥ minThreshold)
      rowsC.map (fun d => (d, d.sim))

/-- A result of `search_with_country_priority`: the dish, the reported similarity
score, and whether it came from the user's country. -/
structure SearchResult where
  dish : DbDish
  score : ℚ
  fromUserCountry : Bool
deriving DecidableEq, Repr

/-- The stop-word set of phase 0's safety check (dishes.py lines 54-55). -/
def phase0StopWords : List String :=
  ["the", "a", "an", "and", "or", "with", "in", "on", "of"]

/-- Phase 0 of `search_with_country_priority` (dishes.py lines 45-66): exact/prefix
lookup in the user's country, rejected on partial match, and prefix matches also
rejected when sharing no non-stop-word with the query. -/
def swcpPhase0 (dishes : List DbDish) (userCountry queryLower : String) :
    Option SearchResult :=
  match exactOrPrefixSearch dishes queryLower (some userCountry) none with
  | none => none
  | some (d, isExact) =>
    let dishNameLower := lowerStr d.name
    if isPartialMatch queryLower dishNameLower then none
    else
      let queryWords := (dedup (wordsOf queryLower)).filter (· ∉ phase0StopWords)
      let dishWords := (dedup (wordsOf dishNameLower)).filter (· ∉ phase0StopWords)
      let commonWords := queryWords.filter (· ∈ dishWords)
      if !isExact ∧ commonWords = [] ∧ queryWords ≠ [] then none
      else some ⟨d, if isExact then 19/20 else 9/10, true⟩

/-- Phase 1 (dishes.py lines 68-92): high-confidence vector search in the user's
country, with the outer partial-match re-check. -/
def swcpPhase1 (dishes : List DbDish) (userCountry : String) (queryText : Option String)
    (threshold minConfidence : ℚ) : Option SearchResult :=
  match vectorSearch dishes (some userCountry) none (max threshold minConfidence) (4/10)
      queryText with
  | none => none
  | some (d, s) =>
    match queryText with
    | some q =>
      if isPartialMatch (stripStr (lowerStr q)) (lowerStr d.name) then none
      else some ⟨d, s, true⟩
    | none => some ⟨d, s, true⟩

/-- Phase 2 (dishes.py lines 94-117): lower-threshold vector search in the user's
country, returned only at `min_confidence` or above. -/
def swcpPhase2 (dishes : List DbDish) (userCountry : String) (queryText : Option String)
    (threshold minConfidence : ℚ) : Option SearchResult :=
  match vectorSearch dishes (some userCountry) none threshold (4/10) queryText with
  | none => none
  | some (d, s) =>
    if (match queryText with
        | some q => isPartialMatch (stripStr (lowerStr q)) (lowerStr d.name)
        | none => false) then none
    else if s ≥ minConfidence then some ⟨d, s, true⟩
    else none

/-- Phase 3 (dishes.py lines 119-130): exact/prefix lookup in all other countries,
rejected on partial match. -/
def swcpPhase3 (dishes : List DbDish) (userCountry queryLower : String) :
    Option SearchResult :=
  match exactOrPrefixSearch dishes queryLower none (some userCountry) with
  | none => none
  | some (d, isExact) =>
    if isPartialMatch queryLower (lowerStr d.name) then none
    else some ⟨d, if isExact then 19/20 else 9/10, false⟩

/-- Phase 4 (dishes.py lines 132-149): high-confidence vector search over all other
countries. -/
def swcpPhase4 (dishes : List DbDish) (userCountry : String) (queryText : Option String)
    (threshold minConfidence : ℚ) : Option SearchResult :=
  match vectorSearch dishes none (some userCountry) (max threshold minConfidence) (4/10)
      queryText with
  | none => none
  | some (d, s) =>
    if (match queryText with
        | some q => isPartialMatch (stripStr (lowerStr q)) (lowerStr d.name)
        | none => false) then none
    else some ⟨d, s, false⟩

/-- Phase 5 (dishes.py lines 151-171): last-resort lower-threshold vector search
over all other countries. -/
def swcpPhase5 (dishes : List DbDish) (userCountry : String) (queryText : Option String)
    (threshold : ℚ) : Option SearchResult :=
  match vectorSearch dishes none (some userCountry) threshold (4/10) queryText with
  | none => none
  | some (d, s) =>
    if (match queryText with
        | some q => isPartialMatch (stripStr (lowerStr q)) (lowerStr d.name)
        | none => false) then none
    else some ⟨d, s, false⟩

/-- `DishesRepository.search_with_country_priority` (dishes.py lines 17-174): the
phases in source order; phases 0 and 3 run only with query text, phases 2 and 5
only when the initial threshold is below `min_confidence`. -/
def searchWithCountryPriority (dishes : List DbDish) (userCountry : String)
    (queryText : Option String) (threshold minConfidence : ℚ) : Option SearchResult :=
  let queryLower := match queryText with
    | some t => stripStr (lowerStr t)
    | none => ""
  orElseO (match queryText with
           | some _ => swcpPhase0 dishes userCountry queryLower
           | none => none)
    (orElseO (swcpPhase1 dishes userCountry queryText threshold minConfidence)
      (orElseO (if threshold < minConfidence then
                  swcpPhase2 dishes userCountry queryText threshold minConfidence
                else none)
        (orElseO (match queryText with
                  | some _ => swcpPhase3 dishes userCountry queryLower
                  | none => none)
          (orElseO (swcpPhase4 dishes userCountry queryText threshold minConfidence)
            (if threshold < minConfidence then
              swcpPhase5 dishes userCountry queryText threshold
            else none)))))

/-! ## General lemmas -/

theorem orElseO_eq_none {a b : Option α} (h : orElseO a b = none) :
    a = none ∧ b = none := by
  cases a with
  | none => exact ⟨rfl, h⟩
  | some x => simp [orElseO] at h

theorem orElseO_eq_some {a b : Option α} {x : α} (h : orElseO a b = some x) :
    a = some x ∨ (a = none ∧ b = some x) := by
  cases a with
  | none => exact Or.inr ⟨rfl, h⟩
  | some y => left; simpa [orElseO] using h

theorem argmaxFirst_mem {f : α → ℚ} {l : List α} {x : α} (h : argmaxFirst f l = some x) :
    x ∈ l := by
  induction l with
  | nil => simp [argmaxFirst] at h
  | cons y ys ih =>
    simp only [argmaxFirst] at h
    split at h
    · cases h
      exact List.mem_cons_self _ _
    · next z hz =>
      split at h
      · cases h
        exact List.mem_cons_of_mem _ (ih hz)
      · cases h
        exact List.mem_cons_self _ _

/-! ## Claim theorems -/

/-- Claim C3, counterexample: the source `calculate_nutrition_by_weight` has no
`InvalidWeight` failure — at the non-positive weight `-50` it still returns the
scaled record (calories `-65`), where the spec-modelled `scale_to_weight`
fails. -/
theorem c3_counterexample :
    calculateNutritionByWeight 130 0 0 0 (-50) =
      { calories := -65, carbs := 0, protein := 0, fat := 0 } ∧
    specScaleToWeight 130 0 0 0 (-50) = none ∧
    some (calculateNutritionByWeight 130 0 0 0 (-50)) ≠ specScaleToWeight 130 0 0 0 (-50) := by
  refine ⟨?_, ?_, ?_⟩ <;> with_unfolding_all decide

/-- Claim C3 (amended): `calculate_nutrition_by_weight` multiplies each per-100g
macro by `weight_g/100` and rounds to one decimal for every weight; it agrees
with the spec's `scale_to_weight` whenever `weight_g > 0`, while for
`weight_g ≤ 0` the spec fails with `InvalidWeight` but the code still returns
the scaled record. -/
theorem c3_scaleToWeight (c ca p f w : ℚ) :
    (0 < w → specScaleToWeight c ca p f w = some (calculateNutritionByWeight c ca p f w)) ∧
    (w ≤ 0 → specScaleToWeight c ca p f w = none) ∧
    calculateNutritionByWeight c ca p f w =
      { calories := round1 (c * (w / 100)), carbs := round1 (ca * (w / 100)),
        protein := round1 (p * (w / 100)), fat := round1 (f * (w / 100)) } := by
  refine ⟨fun hw => ?_, fun hw => ?_, rfl⟩
  · unfold specScaleToWeight
    rw [if_neg (not_le.mpr hw)]
  · unfold specScaleToWeight
    rw [if_pos hw]

/-- Claim C3, witness for the amended theorem at weight 200. -/
theorem c3_witness :
    specScaleToWeight 130 0 0 0 200 = some (calculateNutritionByWeight 130 0 0 0 200) ∧
    specScaleToWeight 130 0 0 0 (-50) = none :=
  ⟨(c3_scaleToWeight 130 0 0 0 200).1 (by norm_num),
   (c3_scaleToWeight 130 0 0 0 (-50)).2.1 (by norm_num)⟩

/-- Claim C9: `calculate_per_100g` returns the unscaled totals unchanged for every
non-positive total weight (a no-op, not a failure), and multiplies each total by
`100/total_weight_g` for every positive total weight. -/
theorem c9_per100g (ings : List IngredientWithNutrition) (w : ℚ) :
    (w ≤ 0 → calculatePer100g ings w = calculateTotalsCC ings) ∧
    (0 < w → calculatePer100g ings w =
      { calories := (calculateTotalsCC ings).calories * (100 / w)
        carbs := (calculateTotalsCC ings).carbs * (100 / w)
        protein := (calculateTotalsCC ings).protein * (100 / w)
        fat := (calculateTotalsCC ings).fat * (100 / w) }) := by
  constructor
  · intro hw
    unfold calculatePer100g
    rw [if_pos hw]
  · intro hw
    unfold calculatePer100g
    rw [if_neg (not_le.mpr hw)]

/-- Claim C9, witness at an empty list with weights −5 and 50. -/
theorem c9_witness :
    calculatePer100g [] (-5) = calculateTotalsCC [] ∧
    calculatePer100g [⟨"Rice", 200, none, 260, 0, 0, 0⟩] 50 =
      { calories := (calculateTotalsCC [⟨"Rice", 200, none, 260, 0, 0, 0⟩]).calories * (100 / 50)
        carbs := (calculateTotalsCC [⟨"Rice", 200, none, 260, 0, 0, 0⟩]).carbs * (100 / 50)
        protein := (calculateTotalsCC [⟨"Rice", 200, none, 260, 0, 0, 0⟩]).protein * (100 / 50)
        fat := (calculateTotalsCC [⟨"Rice", 200, none, 260, 0, 0, 0⟩]).fat * (100 / 50) } :=
  ⟨(c9_per100g [] (-5)).1 (by norm_num),
   (c9_per100g [⟨"Rice", 200, none, 260, 0, 0, 0⟩] 50).2 (by norm_num)⟩

/-- Claim C10: a `change_quantity` modification whose `new_weight_g` is absent or
zero leaves the ingredient list unchanged at the `apply_modifications` interface
(source guard `not new_weight_g`), raising no error. -/
theorem c10_missingWeight (lookup : String → Option UsdaFood)
    (ings : List IngredientWithNutrition) (name : String) (nw : Option ℚ)
    (h : nw = none ∨ nw = some 0) :
    applyModifications lookup ings [⟨"change_quantity", name, nw⟩] = ings := by
  unfold applyModifications
  have hq : changeQuantity ings name nw = ings := by
    rcases h with rfl | rfl
    · rfl
    · simp [changeQuantity]
  split
  · next hempty => exact hempty.symm
  · split
    · next hmods => exact absurd hmods (by simp)
    · simp only [List.foldl_cons, List.foldl_nil]
      rw [show (("change_quantity" : String) == "remove") = false from rfl]
      rw [show (("change_quantity" : String) == "add") = false from rfl]
      rw [show (("change_quantity" : String) == "change_quantity") = true from rfl]
      simp only [Bool.false_eq_true, if_false, if_true]
      split
      · rfl
      · exact hq

/-- Claim C10, witness: a concrete list with a missing and a zero new weight. -/
theorem c10_witness :
    applyModifications (fun _ => none) [⟨"Rice", 100, none, 130, 0, 0, 0⟩]
        [⟨"change_quantity", "rice", some 0⟩] = [⟨"Rice", 100, none, 130, 0, 0, 0⟩] ∧
    applyModifications (fun _ => none) [⟨"Rice", 100, none, 130, 0, 0, 0⟩]
        [⟨"change_quantity", "rice", none⟩] = [⟨"Rice", 100, none, 130, 0, 0, 0⟩] := by
  refine ⟨?_, ?_⟩
  · exact c10_missingWeight (fun _ => none) _ "rice" (some 0) (Or.inr rfl)
  · exact c10_missingWeight (fun _ => none) _ "rice" none (Or.inl rfl)

/-- Claim C7: `_add_ingredient` resolves the named ingredient at the given weight
(default 30 g), appends the resolved ingredient on success, and on resolution
failure returns exactly the input list with no error. -/
theorem c7_addIngredient (lookup : String → Option UsdaFood)
    (ings : List IngredientWithNutrition) (name : String) (w : Option ℚ) :
    (lookup name = none → addIngredient lookup ings name w = ings) ∧
    (∀ food, lookup name = some food →
      addIngredient lookup ings name w = ings ++
        [{ name := food.description
           weight_g := w.getD 30
           usda_fdc_id := some food.fdc_id
           calories := round1 (food.calories * (w.getD 30 / 100))
           carbs := round1 (food.carbs * (w.getD 30 / 100))
           protein := round1 (food.protein * (w.getD 30 / 100))
           fat := round1 (food.fat * (w.getD 30 / 100)) }]) := by
  constructor
  · intro h
    unfold addIngredient searchAndCalculate
    rw [h]
  · intro food h
    unfold addIngredient searchAndCalculate
    rw [h]
    rfl

/-- A concrete USDA store oracle holding a single tomato record. -/
def c7lookup : String → Option UsdaFood := fun n =>
  if n = "tomato" then some ⟨"Tomatoes, raw", 1234, 18, 4, 1, 0⟩ else none

/-- Claim C7, witness: failed resolution leaves the list unchanged; successful
resolution without a weight appends the record scaled to 30 g. -/
theorem c7_witness :
    addIngredient c7lookup [] "nonsense" (some 50) = [] ∧
    addIngredient c7lookup [] "tomato" none = [] ++
      [{ name := "Tomatoes, raw"
         weight_g := (none : Option ℚ).getD 30
         usda_fdc_id := some 1234
         calories := round1 (18 * ((none : Option ℚ).getD 30 / 100))
         carbs := round1 (4 * ((none : Option ℚ).getD 30 / 100))
         protein := round1 (1 * ((none : Option ℚ).getD 30 / 100))
         fat := round1 (0 * ((none : Option ℚ).getD 30 / 100)) }] :=
  ⟨(c7_addIngredient c7lookup [] "nonsense" (some 50)).1 rfl,
   (c7_addIngredient c7lookup [] "tomato" none).2 ⟨"Tomatoes, raw", 1234, 18, 4, 1, 0⟩ rfl⟩

theorem round1_zero : round1 0 = 0 := by
  with_unfolding_all decide

/-- Claim C5: `change_quantity(ingredient="rice", new_weight_g=200)` on
`{name:"Rice", weight_g:100, calories:130}` yields calories 260; in general, with
a nonzero new weight every matched ingredient's macros are recomputed as
`round1((value * 100/weight_g) * new_weight_g/100)` with the division guarded at
zero weight, and non-matching ingredients pass through unchanged. -/
theorem c5_changeQuantity :
    changeQuantity [⟨"Rice", 100, none, 130, 0, 0, 0⟩] "rice" (some 200) =
      [⟨"Rice", 200, none, 260, 0, 0, 0⟩] ∧
    ∀ (ings : List IngredientWithNutrition) (name : String) (w : ℚ), w ≠ 0 →
      changeQuantity ings name (some w) = ings.map (fun ing =>
        if ing.name ≠ "" ∧ ingredientsMatch name ing.name then
          if 0 < ing.weight_g then
            { name := ing.name, weight_g := w, usda_fdc_id := ing.usda_fdc_id
              calories := round1 (ing.calories * (100 / ing.weight_g) * (w / 100))
              carbs := round1 (ing.carbs * (100 / ing.weight_g) * (w / 100))
              protein := round1 (ing.protein * (100 / ing.weight_g) * (w / 100))
              fat := round1 (ing.fat * (100 / ing.weight_g) * (w / 100)) }
          else
            { name := ing.name, weight_g := w, usda_fdc_id := ing.usda_fdc_id
              calories := 0, carbs := 0, protein := 0, fat := 0 }
        else ing) := by
  constructor
  · with_unfolding_all decide
  · intro ings name w hw
    by_cases hn : name = ""
    · subst hn
      have hL : changeQuantity ings "" (some w) = ings := by
        unfold changeQuantity
        dsimp only
        rw [if_pos (Or.inl rfl)]
      rw [hL]
      have hmatch : ∀ s, ingredientsMatch "" s = false := fun _ => rfl
      simp [hmatch]
    · have hcond : ¬(name = "" ∨ w = 0) := by
        rintro (h | h)
        · exact hn h
        · exact hw h
      unfold changeQuantity
      dsimp only
      rw [if_neg hcond]
      apply List.map_congr_left
      intro ing _
      by_cases hm : ing.name ≠ "" ∧ ingredientsMatch name ing.name = true
      · rw [if_pos hm, if_pos hm]
        by_cases hwg : ing.weight_g > 0
        · simp only [if_pos hwg, calculateNutritionByWeight]
        · simp only [if_neg hwg, calculateNutritionByWeight]
          simp [round1_zero]
      · rw [if_neg hm, if_neg hm]

/-- Claim C5, witness for the general clause at the Rice instance. -/
theorem c5_witness :
    changeQuantity [⟨"Rice", 100, none, 130, 0, 0, 0⟩] "rice" (some 200) =
      [⟨"Rice", 100, none, 130, 0, 0, 0⟩].map (fun ing =>
        if ing.name ≠ "" ∧ ingredientsMatch "rice" ing.name then
          if 0 < ing.weight_g then
            { name := ing.name, weight_g := 200, usda_fdc_id := ing.usda_fdc_id
              calories := round1 (ing.calories * (100 / ing.weight_g) * (200 / 100))
              carbs := round1 (ing.carbs * (100 / ing.weight_g) * (200 / 100))
              protein := round1 (ing.protein * (100 / ing.weight_g) * (200 / 100))
              fat := round1 (ing.fat * (100 / ing.weight_g) * (200 / 100)) }
          else
            { name := ing.name, weight_g := 200, usda_fdc_id := ing.usda_fdc_id
              calories := 0, carbs := 0, protein := 0, fat := 0 }
        else ing) :=
  c5_changeQuantity.2 [⟨"Rice", 100, none, 130, 0, 0, 0⟩] "rice" 200 (by norm_num)

/-- The Potato ingredient of the C6 scenario. -/
def potatoIng : IngredientWithNutrition := ⟨"Potato", 100, none, 77, 17, 2, 1/10⟩

/-- The Tomato ingredient of the C6 scenario. -/
def tomatoIng : IngredientWithNutrition := ⟨"Tomato", 50, none, 9, 2, 1/2, 1/10⟩

/-- The french-fried potatoes ingredient of the C6 scenario. -/
def friedPotatoIng : IngredientWithNutrition := ⟨"Potatoes, french fried", 100, none, 312, 41, 3, 15⟩

/-- Claim C6: `remove("potato")` on `[Potato, Tomato]` yields `[Tomato]`;
`remove("fries")` removes "Potatoes, french fried" because core-name extraction
maps both "fries" and "Potatoes" to "potato"; and every ingredient the match
rule rejects passes through unchanged. -/
theorem c6_remove :
    removeIngredient [potatoIng, tomatoIng] "potato" = [tomatoIng] ∧
    extractCoreIngredient "fries" = "potato" ∧
    extractCoreIngredient "Potatoes, french fried" = "potato" ∧
    ingredientsMatch "fries" "Potatoes, french fried" = true ∧
    removeIngredient [friedPotatoIng, tomatoIng] "fries" = [tomatoIng] ∧
    ∀ (ings : List IngredientWithNutrition) (name : String) (ing : IngredientWithNutrition),
      ing ∈ ings → ingredientsMatch name ing.name = false →
      ing ∈ removeIngredient ings name := by
  refine ⟨?_, ?_, ?_, ?_, ?_, ?_⟩
  · with_unfolding_all decide
  · with_unfolding_all decide
  · with_unfolding_all decide
  · with_unfolding_all decide
  · with_unfolding_all decide
  · intro ings name ing hmem hnm
    unfold removeIngredient
    split
    · exact hmem
    · exact List.mem_filter.mpr ⟨hmem, by simp [hnm]⟩

/-- Claim C6, witness: Tomato (whose name does not match "potato") survives the
removal. -/
theorem c6_witness : tomatoIng ∈ removeIngredient [potatoIng, tomatoIng] "potato" :=
  c6_remove.2.2.2.2.2 [potatoIng, tomatoIng] "potato" tomatoIng (by simp)
    (by with_unfolding_all decide)

theorem foldl_addToTotals (l : List IngredientWithNutrition) (t : NutritionTotals) :
    l.foldl addToTotals t =
      { calories := t.calories + (l.map (fun i => i.calories)).sum
        carbs := t.carbs + (l.map (fun i => i.carbs)).sum
        protein := t.protein + (l.map (fun i => i.protein)).sum
        fat := t.fat + (l.map (fun i => i.fat)).sum } := by
  induction l generalizing t with
  | nil => simp
  | cons x xs ih =>
    simp only [List.foldl_cons, List.map_cons, List.sum_cons, ih, addToTotals,
      NutritionTotals.mk.injEq]
    refine ⟨by ring, by ring, by ring, by ring⟩

theorem calculateTotalsNS_eq_round (l : List IngredientWithNutrition) :
    calculateTotalsNS l =
      { calories := round1 (calculateTotalsCC l).calories
        carbs := round1 (calculateTotalsCC l).carbs
        protein := round1 (calculateTotalsCC l).protein
        fat := round1 (calculateTotalsCC l).fat } := rfl

theorem sum_tenths {l : List ℚ} (h : ∀ x ∈ l, ∃ n : ℤ, x = n / 10) :
    ∃ n : ℤ, l.sum = n / 10 := by
  induction l with
  | nil => exact ⟨0, by simp⟩
  | cons x xs ih =>
    obtain ⟨n, hn⟩ := h x (List.mem_cons_self _ _)
    obtain ⟨m, hm⟩ := ih (fun y hy => h y (List.mem_cons_of_mem _ hy))
    refine ⟨n + m, ?_⟩
    rw [List.sum_cons, hn, hm]
    push_cast
    ring

/-- Claim C8, counterexample: `NutritionService.calculate_totals` rounds each
total to one decimal place, so on an ingredient with calories 0.07 it returns
0.1, not the element-wise sum 0.07. -/
theorem c8_counterexample :
    calculateTotalsNS [⟨"Oil", 1, none, 7/100, 0, 0, 0⟩] =
      { calories := 1/10, carbs := 0, protein := 0, fat := 0 } ∧
    ([(⟨"Oil", 1, none, 7/100, 0, 0, 0⟩ : IngredientWithNutrition)].map
      (fun i => i.calories)).sum = 7/100 ∧
    calculateTotalsNS [⟨"Oil", 1, none, 7/100, 0, 0, 0⟩] ≠
      { calories := ([(⟨"Oil", 1, none, 7/100, 0, 0, 0⟩ : IngredientWithNutrition)].map
          (fun i => i.calories)).sum
        carbs := 0, protein := 0, fat := 0 } := by
  refine ⟨?_, ?_, ?_⟩ <;> with_unfolding_all decide

/-- Claim C8 (amended): both `calculate_totals` implementations yield all-zero
totals on the empty list and are invariant under permutation;
`CalorieCalculator.calculate_totals` is exactly the element-wise sum, while
`NutritionService.calculate_totals` rounds each total to one decimal place and
therefore equals the element-wise sum exactly when each summed macro is a
one-decimal multiple (as macros produced by the 1-dp scaler are). -/
theorem c8_sumTotals :
    calculateTotalsCC [] = { calories := 0, carbs := 0, protein := 0, fat := 0 } ∧
    calculateTotalsNS [] = { calories := 0, carbs := 0, protein := 0, fat := 0 } ∧
    (∀ l : List IngredientWithNutrition,
      calculateTotalsCC l =
        { calories := (l.map (fun i => i.calories)).sum
          carbs := (l.map (fun i => i.carbs)).sum
          protein := (l.map (fun i => i.protein)).sum
          fat := (l.map (fun i => i.fat)).sum }) ∧
    (∀ l₁ l₂ : List IngredientWithNutrition, l₁.Perm l₂ →
      calculateTotalsCC l₁ = calculateTotalsCC l₂ ∧
      calculateTotalsNS l₁ = calculateTotalsNS l₂) ∧
    (∀ l : List IngredientWithNutrition,
      (∀ ing ∈ l, (∃ n : ℤ, ing.calories = n / 10) ∧ (∃ n : ℤ, ing.carbs = n / 10) ∧
        (∃ n : ℤ, ing.protein = n / 10) ∧ (∃ n : ℤ, ing.fat = n / 10)) →
      calculateTotalsNS l = calculateTotalsCC l) := by
  have hcc : ∀ l : List IngredientWithNutrition,
      calculateTotalsCC l =
        { calories := (l.map (fun i => i.calories)).sum
          carbs := (l.map (fun i => i.carbs)).sum
          protein := (l.map (fun i => i.protein)).sum
          fat := (l.map (fun i => i.fat)).sum } := by
    intro l
    unfold calculateTotalsCC
    rw [foldl_addToTotals]
    simp only [NutritionTotals.mk.injEq]
    refine ⟨by ring, by ring, by ring, by ring⟩
  have hperm : ∀ l₁ l₂ : List IngredientWithNutrition, l₁.Perm l₂ →
      calculateTotalsCC l₁ = calculateTotalsCC l₂ := by
    intro l₁ l₂ hp
    rw [hcc, hcc]
    simp only [NutritionTotals.mk.injEq]
    exact ⟨(hp.map _).sum_eq, (hp.map _).sum_eq, (hp.map _).sum_eq, (hp.map _).sum_eq⟩
  refine ⟨rfl, ?_, hcc, ?_, ?_⟩
  · with_unfolding_all decide
  · intro l₁ l₂ hp
    refine ⟨hperm l₁ l₂ hp, ?_⟩
    rw [calculateTotalsNS_eq_round, calculateTotalsNS_eq_round, hperm l₁ l₂ hp]
  · intro l hmul
    rw [calculateTotalsNS_eq_round, hcc l]
    have h1 := sum_tenths (l := l.map (fun i => i.calories))
      (by
        intro x hx
        obtain ⟨i, hi, rfl⟩ := List.mem_map.mp hx
        exact (hmul i hi).1)
    have h2 := sum_tenths (l := l.map (fun i => i.carbs))
      (by
        intro x hx
        obtain ⟨i, hi, rfl⟩ := List.mem_map.mp hx
        exact (hmul i hi).2.1)
    have h3 := sum_tenths (l := l.map (fun i => i.protein))
      (by
        intro x hx
        obtain ⟨i, hi, rfl⟩ := List.mem_map.mp hx
        exact (hmul i hi).2.2.1)
    have h4 := sum_tenths (l := l.map (fun i => i.fat))
      (by
        intro x hx
        obtain ⟨i, hi, rfl⟩ := List.mem_map.mp hx
        exact (hmul i hi).2.2.2)
    simp only [NutritionTotals.mk.injEq]
    exact ⟨round1_eq_self_of_den h1, round1_eq_self_of_den h2,
      round1_eq_self_of_den h3, round1_eq_self_of_den h4⟩

/-- Claim C8, witness: permutation invariance and exactness on one-decimal
inputs at a concrete two-ingredient list. -/
theorem c8_witness :
    calculateTotalsCC [potatoIng, tomatoIng] = calculateTotalsCC [tomatoIng, potatoIng] ∧
    calculateTotalsNS [potatoIng] = calculateTotalsCC [potatoIng] := by
  constructor
  · exact (c8_sumTotals.2.2.2.1 [potatoIng, tomatoIng] [tomatoIng, potatoIng]
      (List.Perm.swap _ _ _)).1
  · apply c8_sumTotals.2.2.2.2
    intro ing hing
    rcases List.mem_cons.mp hing with rfl | h
    · refine ⟨⟨770, ?_⟩, ⟨170, ?_⟩, ⟨20, ?_⟩, ⟨1, ?_⟩⟩ <;> norm_num [potatoIng]
    · exact absurd h (List.not_mem_nil _)

/-! ## Dish-matcher theorems (C1, C2, C4) -/

theorem orElseO_none (b : Option α) : orElseO none b = b := rfl

theorem findDish_eq (sim : String → ℚ) (dishes : List HandlerDish) (q : String)
    (country : Option String) (fThr sThr : ℚ) :
    findDish sim dishes q country fThr sThr =
      if dishes = [] then none
      else
        orElseO (strategyExact (dishChoices (candidatesFor dishes country)) (stripStr (lowerStr q)))
          (orElseO (strategyKeyword (extractKeyWords (stripStr (lowerStr q)))
              (dishChoices (candidatesFor dishes country)))
            (orElseO (strategyFuzzy (stripStr (lowerStr q))
                (dishChoices (candidatesFor dishes country)) fThr)
              (strategySemantic sim (extractKeyWords (stripStr (lowerStr q)))
                (candidatesFor dishes country) sThr))) := rfl

theorem semanticSearch_sim_ge {sim : String → ℚ} {cands : List HandlerDish} {thr : ℚ}
    {d : HandlerDish} (h : semanticSearch sim cands thr = some d) :
    sim (stripStr (lowerStr (getDishName d))) ≥ thr := by
  unfold semanticSearch at h
  dsimp only at h
  split at h
  · exact absurd h (by simp)
  · next best hbest =>
    split at h
    · next hge =>
      cases h
      have hmem := argmaxFirst_mem hbest
      obtain ⟨d0, _, hpair⟩ := List.mem_filterMap.mp hmem
      split at hpair
      · cases hpair
        exact hge
      · exact absurd hpair (by simp)
    · exact absurd h (by simp)

/-- Claim C1, counterexample: the in-memory `find_dish` has no partial-match
rejection — on a store holding only "Shawarma Pizza" the query "shawarma" is
accepted by the keyword strategy (score 0.8, unique close match) and the dish
named "Shawarma Pizza" is returned, regardless of the embedding oracle. -/
theorem c1_counterexample :
    findDish (fun _ => 0) [⟨"Shawarma Pizza", "Lebanon"⟩] "shawarma" none 85 (17/20) =
      some ⟨"Shawarma Pizza", "Lebanon"⟩ ∧
    getDishName ⟨"Shawarma Pizza", "Lebanon"⟩ = "Shawarma Pizza" := by
  refine ⟨?_, ?_⟩ <;> with_unfolding_all decide

/-- Claim C2, counterexample: with dishes in both Egypt and Lebanon and the
country hint "Egypt", the query "hummus" finds nothing among Egypt's dishes and
`find_dish` reports no match — it does not search the remaining dishes, although
the very same store contains the exact match "Hummus" (returned when no country
filter applies). -/
theorem c2_counterexample :
    findDish (fun _ => 0) [⟨"Falafel", "Egypt"⟩, ⟨"Hummus", "Lebanon"⟩] "hummus"
      (some "Egypt") 85 (17/20) = none ∧
    findDish (fun _ => 0) [⟨"Falafel", "Egypt"⟩, ⟨"Hummus", "Lebanon"⟩] "hummus"
      none 85 (17/20) = some ⟨"Hummus", "Lebanon"⟩ := by
  refine ⟨?_, ?_⟩ <;> with_unfolding_all decide

/-- Claim C4: whenever the exact, keyword and fuzzy strategies all fail and
`find_dish` still returns a dish, that dish is the semantic-search candidate,
its embedding similarity reaches the semantic threshold, and its keyword-overlap
re-verification score against the query is at least 0.5 — semantic similarity
alone is never sufficient. -/
theorem c4_semanticVerified (sim : String → ℚ) (dishes : List HandlerDish) (q : String)
    (country : Option String) (fuzzyThr semThr : ℚ) (d : HandlerDish)
    (h1 : strategyExact (dishChoices (candidatesFor dishes country))
      (stripStr (lowerStr q)) = none)
    (h2 : strategyKeyword (extractKeyWords (stripStr (lowerStr q)))
      (dishChoices (candidatesFor dishes country)) = none)
    (h3 : strategyFuzzy (stripStr (lowerStr q)) (dishChoices (candidatesFor dishes country))
      fuzzyThr = none)
    (hf : findDish sim dishes q country fuzzyThr semThr = some d) :
    semanticSearch sim (candidatesFor dishes country) semThr = some d ∧
    sim (stripStr (lowerStr (getDishName d))) ≥ semThr ∧
    calculateMatchScore (extractKeyWords (stripStr (lowerStr q)))
      (extractKeyWords (lowerStr (getDishName d))) ≥ 1/2 := by
  rw [findDish_eq] at hf
  split at hf
  · exact absurd hf (by simp)
  · rw [h1, orElseO_none, h2, orElseO_none, h3, orElseO_none] at hf
    unfold strategySemantic at hf
    split at hf
    · exact absurd hf (by simp)
    · next d0 hsem =>
      dsimp only at hf
      split at hf
      · next hscore =>
        cases hf
        exact ⟨hsem, semanticSearch_sim_ge hsem, hscore⟩
      · exact absurd hf (by simp)

/-- The embedding oracle of the C4 witness scenario. -/
def c4sim : String → ℚ := fun n => if n == "chicken biryani" then 9/10 else 0

/-- Claim C4, witness: query "biryani rice" against a store holding only
"Chicken Biryani" — the exact, keyword (score 0.5 < 0.75) and fuzzy
(token-set ratio 2200/27 < 85) strategies all fail, the semantic oracle scores
0.9 ≥ 0.85, and the keyword re-verification score is exactly 0.5. -/
theorem c4_witness :
    semanticSearch c4sim (candidatesFor [⟨"Chicken Biryani", "India"⟩] none) (17/20) =
      some ⟨"Chicken Biryani", "India"⟩ ∧
    c4sim (stripStr (lowerStr (getDishName ⟨"Chicken Biryani", "India"⟩))) ≥ 17/20 ∧
    calculateMatchScore (extractKeyWords (stripStr (lowerStr "biryani rice")))
      (extractKeyWords (lowerStr (getDishName ⟨"Chicken Biryani", "India"⟩))) ≥ 1/2 :=
  c4_semanticVerified c4sim [⟨"Chicken Biryani", "India"⟩] "biryani rice" none 85 (17/20)
    ⟨"Chicken Biryani", "India"⟩
    (by with_unfolding_all decide) (by with_unfolding_all decide)
    (by with_unfolding_all decide) (by with_unfolding_all decide)

/-! ## Repository-search theorems (C1 amended, C2 amended) -/

theorem swcp_eq (dishes : List DbDish) (uc q : String) (thr minc : ℚ) :
    searchWithCountryPriority dishes uc (some q) thr minc =
      orElseO (swcpPhase0 dishes uc (stripStr (lowerStr q)))
        (orElseO (swcpPhase1 dishes uc (some q) thr minc)
          (orElseO (if thr < minc then swcpPhase2 dishes uc (some q) thr minc else none)
            (orElseO (swcpPhase3 dishes uc (stripStr (lowerStr q)))
              (orElseO (swcpPhase4 dishes uc (some q) thr minc)
                (if thr < minc then swcpPhase5 dishes uc (some q) thr else none))))) := rfl

theorem vectorSearch_notPartial {dishes : List DbDish} {cf ef : Option String}
    {thr minThr : ℚ} {q : String} {d : DbDish} {s : ℚ}
    (h : vectorSearch dishes cf ef thr minThr (some q) = some (d, s)) :
    isPartialMatch (stripStr (lowerStr q)) (lowerStr d.name) = false := by
  unfold vectorSearch at h
  dsimp only at h
  split at h
  · next d0 hfind =>
    cases h
    have := List.find?_some hfind
    simpa using this
  · split at h
    · next d0 hfind =>
      cases h
      have := List.find?_some hfind
      simpa using this
    · rcases hfind : (sortBySimDesc (filterCountry dishes cf ef)).take 10
        |>.find? (fun d => (!isPartialMatch (stripStr (lowerStr q)) (lowerStr d.name)) &&
          decide (d.sim ≥ minThr)) with _ | d0
      · rw [hfind] at h
        exact absurd h (by simp)
      · rw [hfind] at h
        cases h
        have := List.find?_some hfind
        simp only [Bool.and_eq_true] at this
        simpa using this.1

theorem swcpPhase0_notPartial {dishes : List DbDish} {uc ql : String} {r : SearchResult}
    (h : swcpPhase0 dishes uc ql = some r) :
    isPartialMatch ql (lowerStr r.dish.name) = false := by
  unfold swcpPhase0 at h
  split at h
  · exact absurd h (by simp)
  · next d isExact _ =>
    dsimp only at h
    split at h
    · exact absurd h (by simp)
    · next hp =>
      split at h
      · exact absurd h (by simp)
      · cases h
        simpa using hp

theorem swcpPhase1_notPartial {dishes : List DbDish} {uc q : String} {thr minc : ℚ}
    {r : SearchResult} (h : swcpPhase1 dishes uc (some q) thr minc = some r) :
    isPartialMatch (stripStr (lowerStr q)) (lowerStr r.dish.name) = false := by
  unfold swcpPhase1 at h
  split at h
  · exact absurd h (by simp)
  · next d s hvs =>
    dsimp only at h
    split at h
    · exact absurd h (by simp)
    · next hp =>
      cases h
      simpa using hp

theorem swcpPhase2_notPartial {dishes : List DbDish} {uc q : String} {thr minc : ℚ}
    {r : SearchResult} (h : swcpPhase2 dishes uc (some q) thr minc = some r) :
    isPartialMatch (stripStr (lowerStr q)) (lowerStr r.dish.name) = false := by
  unfold swcpPhase2 at h
  split at h
  · exact absurd h (by simp)
  · next d s hvs =>
    dsimp only at h
    split at h
    · exact absurd h (by simp)
    · next hp =>
      split at h
      · cases h
        simpa using hp
      · exact absurd h (by simp)

theorem swcpPhase3_notPartial {dishes : List DbDish} {uc ql : String} {r : SearchResult}
    (h : swcpPhase3 dishes uc ql = some r) :
    isPartialMatch ql (lowerStr r.dish.name) = false := by
  unfold swcpPhase3 at h
  split at h
  · exact absurd h (by simp)
  · next d isExact _ =>
    split at h
    · exact absurd h (by simp)
    · next hp =>
      cases h
      simpa using hp

theorem swcpPhase4_notPartial {dishes : List DbDish} {uc q : String} {thr minc : ℚ}
    {r : SearchResult} (h : swcpPhase4 dishes uc (some q) thr minc = some r) :
    isPartialMatch (stripStr (lowerStr q)) (lowerStr r.dish.name) = false := by
  unfold swcpPhase4 at h
  split at h
  · exact absurd h (by simp)
  · next d s hvs =>
    dsimp only at h
    split at h
    · exact absurd h (by simp)
    · next hp =>
      cases h
      simpa using hp

theorem swcpPhase5_notPartial {dishes : List DbDish} {uc q : String} {thr : ℚ}
    {r : SearchResult} (h : swcpPhase5 dishes uc (some q) thr = some r) :
    isPartialMatch (stripStr (lowerStr q)) (lowerStr r.dish.name) = false := by
  unfold swcpPhase5 at h
  split at h
  · exact absurd h (by simp)
  · next d s hvs =>
    dsimp only at h
    split at h
    · exact absurd h (by simp)
    · next hp =>
      cases h
      simpa using hp

/-- Claim C1 (amended): the DB-backed pipeline's `_is_partial_match` rejects
"shawarma pizza" for the query "shawarma", and every result returned by
`search_with_country_priority` with query text passes the partial-match check —
while (per the counterexample) the in-memory `find_dish` applies no such
rejection after its strategies. -/
theorem c1_partialRejection :
    isPartialMatch "shawarma" "shawarma pizza" = true ∧
    ∀ (dishes : List DbDish) (uc q : String) (thr minc : ℚ) (r : SearchResult),
      searchWithCountryPriority dishes uc (some q) thr minc = some r →
      isPartialMatch (stripStr (lowerStr q)) (lowerStr r.dish.name) = false := by
  constructor
  · with_unfolding_all decide
  · intro dishes uc q thr minc r h
    rw [swcp_eq] at h
    rcases orElseO_eq_some h with h0 | ⟨_, h'⟩
    · exact swcpPhase0_notPartial h0
    rcases orElseO_eq_some h' with h1 | ⟨_, h''⟩
    · exact swcpPhase1_notPartial h1
    rcases orElseO_eq_some h'' with h2 | ⟨_, h'''⟩
    · rcases Classical.em (thr < minc) with hlt | hlt
      · rw [if_pos hlt] at h2
        exact swcpPhase2_notPartial h2
      · rw [if_neg hlt] at h2
        exact absurd h2 (by simp)
    rcases orElseO_eq_some h''' with h3 | ⟨_, h4⟩
    · exact swcpPhase3_notPartial h3
    rcases orElseO_eq_some h4 with h5 | ⟨_, h6⟩
    · exact swcpPhase4_notPartial h5
    rcases Classical.em (thr < minc) with hlt | hlt
    · rw [if_pos hlt] at h6
      exact swcpPhase5_notPartial h6
    · rw [if_neg hlt] at h6
      exact absurd h6 (by simp)

/-- Claim C1, witness: a concrete store where the search returns an exact match
whose name passes the partial-match check. -/
theorem c1_witness :
    isPartialMatch (stripStr (lowerStr "hummus"))
      (lowerStr (DbDish.name ⟨"Hummus", "Lebanon", 9/10⟩)) = false :=
  c1_partialRejection.2 [⟨"Hummus", "Lebanon", 9/10⟩] "Lebanon" "hummus" (7/10) (7/10)
    ⟨⟨"Hummus", "Lebanon", 9/10⟩, 19/20, true⟩ (by with_unfolding_all decide)

theorem swcpPhase3_none {dishes : List DbDish} {uc ql : String}
    (h : swcpPhase3 dishes uc ql = none) :
    ∀ d mt, exactOrPrefixSearch dishes ql none (some uc) = some (d, mt) →
      isPartialMatch ql (lowerStr d.name) = true := by
  intro d mt heps
  unfold swcpPhase3 at h
  rw [heps] at h
  dsimp only at h
  by_cases hp : isPartialMatch ql (lowerStr d.name) = true
  · exact hp
  · rw [Bool.not_eq_true] at hp
    rw [if_neg (by simp [hp])] at h
    exact absurd h (by simp)

theorem swcpPhase4_none {dishes : List DbDish} {uc q : String} {thr minc : ℚ}
    (h : swcpPhase4 dishes uc (some q) thr minc = none) :
    vectorSearch dishes none (some uc) (max thr minc) (4/10) (some q) = none := by
  unfold swcpPhase4 at h
  rcases hvs : vectorSearch dishes none (some uc) (max thr minc) (4/10) (some q) with _ | ⟨d, s⟩
  · rfl
  · rw [hvs] at h
    dsimp only at h
    rw [if_neg (by simp [vectorSearch_notPartial hvs])] at h
    exact absurd h (by simp)

theorem swcpPhase5_none {dishes : List DbDish} {uc q : String} {thr : ℚ}
    (h : swcpPhase5 dishes uc (some q) thr = none) :
    vectorSearch dishes none (some uc) thr (4/10) (some q) = none := by
  unfold swcpPhase5 at h
  rcases hvs : vectorSearch dishes none (some uc) thr (4/10) (some q) with _ | ⟨d, s⟩
  · rfl
  · rw [hvs] at h
    dsimp only at h
    rw [if_neg (by simp [vectorSearch_notPartial hvs])] at h
    exact absurd h (by simp)

/-- Claim C2 (amended): the country-priority fallback holds for the DB-backed
`search_with_country_priority`: whenever it reports no match with query text
given, the exact/prefix search over the other countries found nothing acceptable
(any hit was a partial match) and the vector searches over the other countries
found nothing — i.e. the remaining dishes were searched before NoMatch.  The
in-memory `find_dish` (per the counterexample) falls back to all dishes only
when the given country has no dishes at all. -/
theorem c2_countryPriority (dishes : List DbDish) (uc q : String) (thr minc : ℚ)
    (h : searchWithCountryPriority dishes uc (some q) thr minc = none) :
    (∀ d mt, exactOrPrefixSearch dishes (stripStr (lowerStr q)) none (some uc) = some (d, mt) →
      isPartialMatch (stripStr (lowerStr q)) (lowerStr d.name) = true) ∧
    vectorSearch dishes none (some uc) (max thr minc) (4/10) (some q) = none ∧
    (thr < minc → vectorSearch dishes none (some uc) thr (4/10) (some q) = none) := by
  rw [swcp_eq] at h
  obtain ⟨h0, h'⟩ := orElseO_eq_none h
  obtain ⟨hp1, h''⟩ := orElseO_eq_none h'
  obtain ⟨hp2, h'''⟩ := orElseO_eq_none h''
  obtain ⟨hp3, h4⟩ := orElseO_eq_none h'''
  obtain ⟨hp4, hp5⟩ := orElseO_eq_none h4
  refine ⟨swcpPhase3_none hp3, swcpPhase4_none hp4, fun hlt => ?_⟩
  rw [if_pos hlt] at hp5
  exact swcpPhase5_none hp5

/-- Claim C2, witness: a store holding only an Egyptian dish, user country
Lebanon, query "hummus" — the search reports no match, and indeed the
non-Lebanon dishes were searched and held nothing acceptable. -/
theorem c2_witness :
    (∀ d mt, exactOrPrefixSearch [⟨"Falafel", "Egypt", 1/10⟩] (stripStr (lowerStr "hummus"))
        none (some "Lebanon") = some (d, mt) →
      isPartialMatch (stripStr (lowerStr "hummus")) (lowerStr d.name) = true) ∧
    vectorSearch [⟨"Falafel", "Egypt", 1/10⟩] none (some "Lebanon") (max (1/2) (7/10)) (4/10)
      (some "hummus") = none ∧
    ((1:ℚ)/2 < 7/10 → vectorSearch [⟨"Falafel", "Egypt", 1/10⟩] none (some "Lebanon") (1/2)
      (4/10) (some "hummus") = none) :=
  c2_countryPriority [⟨"Falafel", "Egypt", 1/10⟩] "Lebanon" "hummus" (1/2) (7/10)
    (by with_unfolding_all decide)

end CaloriesBot
